import Mathlib

/-!
Shallow embedding of the chorus-detection module `CorosDETECfunc.py`.

The module's entry point `detectar_y_extraer_coro` runs a pipeline:
load audio, slice frame-aligned feature streams into overlapping windows
(`analizar_segmentos_completo`), compute a pairwise similarity matrix
(`calcular_similitudes`), score and rank the windows (`calcular_score_coro`),
expand the winner to the target duration (`expandir_segmento`) and export.

External library calls (librosa feature extraction, `np.corrcoef`, pydub
export) are modelled as oracle inputs; everything the repository's own code
computes is translated directly.  Real-valued audio quantities are modelled
as rationals.
-/

namespace CorosDetec

/-- Model of Python `range(0, stop, step)` for a nonnegative stop:
the list `[0, step, 2*step, ...]` of all multiples of `step` strictly below
`stop` (empty when `stop = 0`; `stop` itself is excluded).  The length is
`ceil(stop / step)`, written with natural division. -/
def pyRange0 (stop step : ℕ) : List ℕ :=
  (List.range ((stop + step - 1) / step)).map (fun k => k * step)

/-- Model of the Python slice `l[a:b]` (for `a ≤ b`; truncates at the end of
the list like Python slicing does). -/
def sliceL (l : List ℚ) (a b : ℕ) : List ℚ :=
  (l.drop a).take (b - a)

/-- Model of `np.mean` on a 1-D array: sum divided by length. -/
def media (l : List ℚ) : ℚ := l.sum / l.length

/-- Model of `np.var` (population variance, `ddof = 0`): mean squared
deviation from the mean.  `np.var` of a 2-D array is the variance of the
flattened array, so callers flatten first. -/
def varianza (l : List ℚ) : ℚ :=
  (l.map (fun x => (x - media l) ^ 2)).sum / l.length

/-- Number of in-window frames of a 2-D feature sub-matrix, i.e. numpy
`shape[1]` of a matrix stored as a list of rows (numpy arrays are
rectangular, so the first row's length is the common width). -/
def anchura (m : List (List ℚ)) : ℕ := (m.headD []).length

/-- Result of loading an audio file, abstracted as the frame-aligned feature
streams the librosa calls in `analizar_segmentos_completo` return for the
waveform: RMS energy per frame, the 13-row MFCC matrix, spectral centroid
per frame, the 12-row chroma matrix, the sample rate reported by
`librosa.load` and the (unused downstream) tempo estimate. -/
structure AudioCargado where
  rms : List ℚ
  mfcc : List (List ℚ)
  centroid : List ℚ
  chroma : List (List ℚ)
  sr : ℕ
  tempo : ℚ

/-- Segment record built by `analizar_segmentos_completo` for one window
(the Python dict with keys `inicio_s`, `fin_s`, `inicio_frame`, `fin_frame`,
`energia_promedio`, `energia_varianza`, `centroid_promedio`,
`estabilidad_tonal`, `mfcc`, `chroma`). -/
structure Segmento where
  inicio_s : ℚ
  fin_s : ℚ
  inicio_frame : ℕ
  fin_frame : ℕ
  energia_promedio : ℚ
  energia_varianza : ℚ
  centroid_promedio : ℚ
  estabilidad_tonal : ℚ
  mfcc : List (List ℚ)
  chroma : List (List ℚ)
  deriving DecidableEq

/-- Default segment, used to give Python's list indexing a total model; the
pipeline only ever indexes in range. -/
def segDefault : Segmento :=
  { inicio_s := 0, fin_s := 0, inicio_frame := 0, fin_frame := 0
    energia_promedio := 0, energia_varianza := 0, centroid_promedio := 0
    estabilidad_tonal := 0, mfcc := [], chroma := [] }

/-- Body of the window loop of `analizar_segmentos_completo`: the segment
record for the window `[inicio_frame, fin_frame)`.  `librosa.frames_to_time`
is `frame * hop_length / sr` with `hop_length = 512`. -/
def mkSegmento (a : AudioCargado) (inicio_frame fin_frame : ℕ) : Segmento :=
  let rms_seg := sliceL a.rms inicio_frame fin_frame
  let chroma_seg := a.chroma.map (fun fila => sliceL fila inicio_frame fin_frame)
  { inicio_s := (inicio_frame * 512 : ℚ) / (a.sr : ℚ)
    fin_s := (fin_frame * 512 : ℚ) / (a.sr : ℚ)
    inicio_frame := inicio_frame
    fin_frame := fin_frame
    energia_promedio := media rms_seg
    energia_varianza := varianza rms_seg
    centroid_promedio := media (sliceL a.centroid inicio_frame fin_frame)
    estabilidad_tonal := 1 / (1 + varianza chroma_seg.flatten)
    mfcc := a.mfcc.map (fun fila => sliceL fila inicio_frame fin_frame)
    chroma := chroma_seg }

/-- Translation of `analizar_segmentos_completo` (the window loop
`for i in range(0, len(rms) - ventana_frames, hop_frames)` with
`ventana_frames = int(ventana_s * sr / hop_length)`,
`hop_frames = int(hop_s * sr / hop_length)`, `hop_length = 512`; natural
subtraction models the empty Python range at a negative stop).  Returns the
segment list; the pass-through values (`rms`, `times`, `tempo`) carry no
repository computation and are dropped. -/
def analizar_segmentos_completo (a : AudioCargado) (ventana_s hop_s : ℕ) :
    List Segmento :=
  let hop_length := 512
  let ventana_frames := ventana_s * a.sr / hop_length
  let hop_frames := hop_s * a.sr / hop_length
  (pyRange0 (a.rms.length - ventana_frames) hop_frames).map
    (fun i => mkSegmento a i (i + ventana_frames))

/-- Outcome of one external `np.corrcoef(x, y)[0, 1]` call: a value, a NaN
(zero variance), or a raised exception. -/
inductive CorrOut where
  | val (q : ℚ)
  | nan
  | exn
  deriving DecidableEq

/-- Oracle type for `np.corrcoef` on two flattened feature sub-matrices. -/
def CorrFun := List ℚ → List ℚ → CorrOut

/-- Value a correlation outcome contributes inside the `try` block:
`np.isnan` check maps NaN to `0`; an exception (`none`) escapes to the
`except` handler. -/
def valor : CorrOut → Option ℚ
  | .val q => some q
  | .nan => some 0
  | .exn => none

/-- One feature's contribution for a pair, as computed inside the `try`
block of `calcular_similitudes`: if the two sub-matrices have equal width
the correlation is consulted (NaN mapped to 0, exception propagating as
`none`), otherwise the contribution is `0` without calling the oracle. -/
def corrComponente (corr : CorrFun) (m1 m2 : List (List ℚ)) : Option ℚ :=
  if anchura m1 = anchura m2 then valor (corr m1.flatten m2.flatten)
  else some 0

/-- Combined similarity for one pair of segments, including the `except`
handler: an exception anywhere in the pair's computation yields `0` for the
pair (matching the zeros the handler stores); otherwise
`corr_mfcc * 0.7 + corr_chroma * 0.3`. -/
def similitudPar (corrM corrC : CorrFun) (s1 s2 : Segmento) : ℚ :=
  match corrComponente corrM s1.mfcc s2.mfcc with
  | none => 0
  | some cm =>
    match corrComponente corrC s1.chroma s2.chroma with
    | none => 0
    | some cc => cm * (7 / 10) + cc * (3 / 10)

/-- Index pairs visited by the double loop `for i in range(n): for j in
range(i + 1, n)`. -/
def paresIndices (n : ℕ) : List (ℕ × ℕ) :=
  (List.range n).flatMap
    (fun i => (List.range' (i + 1) (n - (i + 1))).map (fun j => (i, j)))

/-- Similarity matrices are total functions on indices; unwritten cells stay
at the `np.zeros` initial value. -/
def matrizCero : ℕ → ℕ → ℚ := fun _ _ => 0

/-- Effect of the two assignments `similitudes[i, j] = v; similitudes[j, i] = v`
on the matrix. -/
def escribeSim (M : ℕ → ℕ → ℚ) (i j : ℕ) (v : ℚ) : ℕ → ℕ → ℚ :=
  fun a b => if (a = i ∧ b = j) ∨ (a = j ∧ b = i) then v else M a b

/-- Translation of `calcular_similitudes`: starting from the zero matrix,
visit every pair `i < j` and store the pair's combined similarity at `(i, j)`
and `(j, i)` (the `except` handler's zeros are the `0` returned by
`similitudPar` on an exception). -/
def calcular_similitudes (corrM corrC : CorrFun) (segs : List Segmento) :
    ℕ → ℕ → ℚ :=
  (paresIndices segs.length).foldl
    (fun M p =>
      escribeSim M p.1 p.2
        (similitudPar corrM corrC (segs.getD p.1 segDefault)
          (segs.getD p.2 segDefault)))
    matrizCero

/-- Score record built by `calcular_score_coro` for one segment (the Python
dict with keys `indice`, `score_total`, `score_repeticion`,
`energia_normalizada`, `score_posicion`, `repeticiones`, `inicio_s`,
`fin_s`). -/
structure ScoreRecord where
  indice : ℕ
  score_total : ℚ
  score_repeticion : ℚ
  energia_normalizada : ℚ
  score_posicion : ℚ
  repeticiones : ℕ
  inicio_s : ℚ
  fin_s : ℚ
  deriving DecidableEq

/-- Model of Python `max(list)` on a list of rationals (only called on
nonempty lists in the pipeline; the empty case, where Python would raise, is
given an arbitrary total value). -/
def pymax : List ℚ → ℚ
  | [] => 0
  | x :: xs => xs.foldl max x

/-- Body of the scoring loop of `calcular_score_coro` for index `i`:
repetition count `np.sum(similitudes[i, :] > 0.6)` over the whole row,
energy / tonal-stability / variance scores normalised by the list maxima,
and the position score from `inicio_s / segmentos[-1].fin_s`. -/
def scoreRecord (segs : List Segmento) (sims : ℕ → ℕ → ℚ) (i : ℕ) :
    ScoreRecord :=
  let seg := segs.getD i segDefault
  let repeticiones :=
    ((List.range segs.length).filter (fun j => decide ((6 : ℚ) / 10 < sims i j))).length
  let score_repeticion := (repeticiones : ℚ) / (segs.length : ℚ)
  let energia_normalizada :=
    seg.energia_promedio / pymax (segs.map (fun s => s.energia_promedio))
  let posicion_relativa := seg.inicio_s / (segs.getLastD segDefault).fin_s
  let score_posicion : ℚ :=
    if 1 / 4 ≤ posicion_relativa ∧ posicion_relativa ≤ 3 / 4 then 1
    else if 3 / 20 ≤ posicion_relativa ∧ posicion_relativa ≤ 17 / 20 then 7 / 10
    else 3 / 10
  let estabilidad_normalizada :=
    seg.estabilidad_tonal / pymax (segs.map (fun s => s.estabilidad_tonal))
  let varianza_normalizada :=
    1 - seg.energia_varianza / pymax (segs.map (fun s => s.energia_varianza))
  { indice := i
    score_total :=
      score_repeticion * (35 / 100) + energia_normalizada * (25 / 100) +
        score_posicion * (15 / 100) + estabilidad_normalizada * (15 / 100) +
        varianza_normalizada * (10 / 100)
    score_repeticion := score_repeticion
    energia_normalizada := energia_normalizada
    score_posicion := score_posicion
    repeticiones := repeticiones
    inicio_s := seg.inicio_s
    fin_s := seg.fin_s }

/-- Translation of `calcular_score_coro`: build one record per segment, then
`sorted(scores, key=lambda x: x.score_total, reverse=True)` (a stable
descending sort, modelled with a stable merge sort). -/
def calcular_score_coro (segs : List Segmento) (sims : ℕ → ℕ → ℚ) :
    List ScoreRecord :=
  ((List.range segs.length).map (scoreRecord segs sims)).mergeSort
    (fun a b => decide (b.score_total ≤ a.score_total))

/-- Translation of `expandir_segmento`: return the winner's bounds unchanged
when its duration already reaches the target; otherwise expand by half the
shortfall on each side (start clamped at 0) and, if the new end passes the
last segment's end time, clamp the end there and pull the start back to
`end - target` (re-clamped at 0). -/
def expandir_segmento (mejor : ScoreRecord) (segs : List Segmento)
    (duracion_objetivo : ℚ) : ℚ × ℚ :=
  let seg := segs.getD mejor.indice segDefault
  let inicio_actual := seg.inicio_s
  let fin_actual := seg.fin_s
  let duracion_actual := fin_actual - inicio_actual
  if duracion_objetivo ≤ duracion_actual then (inicio_actual, fin_actual)
  else
    let expansion_cada_lado := (duracion_objetivo - duracion_actual) / 2
    let nuevo_inicio := max 0 (inicio_actual - expansion_cada_lado)
    let nuevo_fin := fin_actual + expansion_cada_lado
    let duracion_total := (segs.getLastD segDefault).fin_s
    if duracion_total < nuevo_fin then
      (max 0 (duracion_total - duracion_objetivo), duracion_total)
    else (nuevo_inicio, nuevo_fin)

/-- Environment of one `detectar_y_extraer_coro` invocation: the input and
output paths, and the outcomes of the external calls (file existence check,
`librosa.load` with its feature extraction, the two `np.corrcoef` oracles,
and the pydub export). -/
structure Entorno where
  ruta_audio : String
  salida_audio : String
  existe : Bool
  carga : Except String AudioCargado
  corrM : CorrFun
  corrC : CorrFun
  exporta : Except String Unit

/-- Success payload of `detectar_y_extraer_coro` (the dict with
`exito = True`). -/
structure ExitoInfo where
  inicio_s : ℚ
  fin_s : ℚ
  duracion_s : ℚ
  score : ℚ
  repeticiones : ℕ
  archivo_salida : String
  deriving DecidableEq

/-- Return value of `detectar_y_extraer_coro`: the success dict or the
`exito = False` dict with an error message. -/
inductive Resultado where
  | exito (info : ExitoInfo)
  | fallo (error : String)
  deriving DecidableEq

/-- Translation of the main body of `detectar_y_extraer_coro`, with the
surrounding `try`/`except`: every failure of an external call, and the
`IndexError` of `scores[0]` when no segment exists, lands in the `except`
branch and is returned as a failure dict; on success the dict is built from
the expanded bounds and the winning record. -/
def detectar_y_extraer_coro (env : Entorno) (duracion_objetivo : ℚ) :
    Resultado :=
  if env.existe = false then
    .fallo ("No se encontro el archivo: " ++ env.ruta_audio)
  else
    match env.carga with
    | .error e => .fallo e
    | .ok audio =>
      let segmentos := analizar_segmentos_completo audio 12 2
      let similitudes := calcular_similitudes env.corrM env.corrC segmentos
      let scores := calcular_score_coro segmentos similitudes
      match scores with
      | [] => .fallo "list index out of range"
      | mejor :: _ =>
        let par := expandir_segmento mejor segmentos duracion_objetivo
        match env.exporta with
        | .error e => .fallo e
        | .ok _ =>
          .exito
            { inicio_s := par.1
              fin_s := par.2
              duracion_s := par.2 - par.1
              score := mejor.score_total
              repeticiones := mejor.repeticiones
              archivo_salida := env.salida_audio }

/-! ### Closed form of the similarity matrix -/

lemma mem_paresIndices {n : ℕ} {p : ℕ × ℕ} :
    p ∈ paresIndices n ↔ p.1 < p.2 ∧ p.2 < n := by
  unfold paresIndices
  simp only [List.mem_flatMap, List.mem_map, List.mem_range, List.mem_range']
  constructor
  · rintro ⟨i, hi, j, ⟨k, hk, rfl⟩, rfl⟩
    omega
  · rintro ⟨h1, h2⟩
    exact ⟨p.1, by omega, p.2, ⟨p.2 - (p.1 + 1), by omega⟩, rfl⟩

lemma escribeSim_hit {M : ℕ → ℕ → ℚ} {i j a b : ℕ} {v : ℚ}
    (h : (a = i ∧ b = j) ∨ (a = j ∧ b = i)) : escribeSim M i j v a b = v := by
  unfold escribeSim
  exact if_pos h

lemma escribeSim_miss {M : ℕ → ℕ → ℚ} {i j a b : ℕ} {v : ℚ}
    (h : ¬((a = i ∧ b = j) ∨ (a = j ∧ b = i))) : escribeSim M i j v a b = M a b := by
  unfold escribeSim
  exact if_neg h

lemma foldl_escribeSim_eval (f : ℕ → ℕ → ℚ) (l : List (ℕ × ℕ))
    (hl : ∀ p ∈ l, p.1 < p.2) (M0 : ℕ → ℕ → ℚ) (i j : ℕ) :
    (l.foldl (fun M p => escribeSim M p.1 p.2 (f p.1 p.2)) M0) i j =
      if (min i j, max i j) ∈ l then f (min i j) (max i j) else M0 i j := by
  induction l generalizing M0 with
  | nil => simp
  | cons p l ih =>
    have hp : p.1 < p.2 := hl p (List.mem_cons_self p l)
    have hl' : ∀ q ∈ l, q.1 < q.2 := fun q hq => hl q (List.mem_cons_of_mem p hq)
    rw [List.foldl_cons, ih hl']
    by_cases hmem : (min i j, max i j) ∈ l
    · rw [if_pos hmem, if_pos (List.mem_cons_of_mem p hmem)]
    · rw [if_neg hmem]
      by_cases hqp : (min i j, max i j) = p
      · have hij : i ≠ j := by
          intro h
          subst h
          have : i < i := by
            have h1 : min i i = p.1 := congrArg Prod.fst hqp
            have h2 : max i i = p.2 := congrArg Prod.snd hqp
            simp at h1 h2
            omega
          exact absurd this (lt_irrefl i)
        have hcov : (i = p.1 ∧ j = p.2) ∨ (i = p.2 ∧ j = p.1) := by
          have h1 : min i j = p.1 := congrArg Prod.fst hqp
          have h2 : max i j = p.2 := congrArg Prod.snd hqp
          rcases le_or_lt i j with hle | hlt
          · left
            constructor
            · rw [← h1, min_eq_left hle]
            · rw [← h2, max_eq_right hle]
          · right
            constructor
            · rw [← h2, max_eq_left hlt.le]
            · rw [← h1, min_eq_right hlt.le]
        rw [escribeSim_hit hcov, if_pos (hqp ▸ List.mem_cons_self p l)]
        rcases hcov with ⟨rfl, rfl⟩ | ⟨rfl, rfl⟩
        · rw [min_eq_left hp.le, max_eq_right hp.le]
        · rw [min_eq_right hp.le, max_eq_left hp.le]
      · have hmiss : ¬((i = p.1 ∧ j = p.2) ∨ (i = p.2 ∧ j = p.1)) := by
          rintro (⟨rfl, rfl⟩ | ⟨rfl, rfl⟩)
          · exact hqp (by rw [min_eq_left hp.le, max_eq_right hp.le])
          · exact hqp (by rw [min_eq_right hp.le, max_eq_left hp.le])
        rw [escribeSim_miss hmiss]
        rw [if_neg (by
          intro hc
          rcases List.mem_cons.mp hc with h | h
          · exact hqp h
          · exact hmem h)]

/-- Closed form of `calcular_similitudes`: the double loop writes each
off-diagonal in-range cell exactly once, with the pair similarity of the
lower/higher index, and leaves every other cell at zero. -/
lemma calcular_similitudes_eval (corrM corrC : CorrFun) (segs : List Segmento)
    (i j : ℕ) :
    calcular_similitudes corrM corrC segs i j =
      if i ≠ j ∧ i < segs.length ∧ j < segs.length then
        similitudPar corrM corrC (segs.getD (min i j) segDefault)
          (segs.getD (max i j) segDefault)
      else 0 := by
  unfold calcular_similitudes
  rw [foldl_escribeSim_eval
    (fun a b => similitudPar corrM corrC (segs.getD a segDefault) (segs.getD b segDefault))
    (paresIndices segs.length) (fun p hp => (mem_paresIndices.mp hp).1) matrizCero i j]
  by_cases h : i ≠ j ∧ i < segs.length ∧ j < segs.length
  · rw [if_pos h, if_pos (mem_paresIndices.mpr (by
      refine ⟨?_, ?_⟩ <;> simp only [] <;> omega))]
  · rw [if_neg h, if_neg (by
      intro hc
      have hm := mem_paresIndices.mp hc
      simp only [] at hm
      exact h (by omega))]
    rfl

/-! ### Claim C7: symmetry and zero diagonal of the similarity matrix -/

/-- C7: for every segment list, the similarity matrix returned by
`calcular_similitudes` is symmetric — entry `(i, j)` equals entry `(j, i)`
for all `i` and `j`, including when the computation for a pair fails (the
exception handler writes the same zero to both mirrored cells) — and all
diagonal (self-pair) entries are zero. -/
theorem similitudes_simetrica_diagonal_cero (corrM corrC : CorrFun)
    (segs : List Segmento) :
    (∀ i j, calcular_similitudes corrM corrC segs i j =
      calcular_similitudes corrM corrC segs j i) ∧
    (∀ i, calcular_similitudes corrM corrC segs i i = 0) := by
  constructor
  · intro i j
    rw [calcular_similitudes_eval, calcular_similitudes_eval, min_comm j i,
      max_comm j i]
    exact if_congr
      ⟨fun h => ⟨Ne.symm h.1, h.2.2, h.2.1⟩, fun h => ⟨Ne.symm h.1, h.2.2, h.2.1⟩⟩
      rfl rfl
  · intro i
    rw [calcular_similitudes_eval]
    exact if_neg (by simp)

/-! ### Claim C6: per-pair similarity value -/

/-- Correlation oracle returning 1 for every consulted pair of flattened
sub-matrices, as `np.corrcoef` does when the two vectors are equal and
nonconstant. -/
def corrUno : CorrFun := fun _ _ => .val 1

/-- Segment whose MFCC window is 2 frames wide and whose chroma window is
`[[1, 0]]`. -/
def segC6a : Segmento :=
  { segDefault with mfcc := [[1, 2]], chroma := [[1, 0]] }

/-- Segment whose MFCC window is 3 frames wide (width mismatch with
`segC6a`) and whose chroma window equals `segC6a`'s. -/
def segC6b : Segmento :=
  { segDefault with mfcc := [[1, 2, 3]], chroma := [[1, 0]] }

/-- C6 counterexample: a width mismatch does NOT yield similarity 0 for the
pair.  With mismatched MFCC widths (2 vs 3) but matching, perfectly
correlated chroma windows, the similarity entry is `0.3`, not `0`: the
mismatch only zeroes the timbral contribution. -/
theorem similitud_anchura_distinta_contraejemplo :
    anchura segC6a.mfcc ≠ anchura segC6b.mfcc ∧
    calcular_similitudes corrUno corrUno [segC6a, segC6b] 0 1 = 3 / 10 ∧
    (3 : ℚ) / 10 ≠ 0 := by
  refine ⟨by decide, ?_, by norm_num⟩
  rw [calcular_similitudes_eval, if_pos ⟨by decide, by decide, by decide⟩]
  norm_num [similitudPar, corrComponente, corrUno, valor, anchura, segC6a,
    segC6b, segDefault, List.getD]

/-- C6 (amended): for every pair `i < j` in range, the similarity entry is
the pair value `similitudPar`; when both the timbral and the harmonic
sub-matrices have matching widths and neither correlation raises, it equals
`0.7 × timbral + 0.3 × harmonic` with NaN contributing 0 (`valor` maps NaN
to `some 0`); an exception reached during the pair's computation yields 0
for the pair; a width mismatch zeroes only that feature's contribution (the
other feature still contributes), and only when both widths mismatch is the
entry forced to 0. -/
theorem similitud_par_caracterizacion (corrM corrC : CorrFun)
    (segs : List Segmento) (i j : ℕ) (hij : i < j) (hj : j < segs.length) :
    let s1 := segs.getD i segDefault
    let s2 := segs.getD j segDefault
    let sims := calcular_similitudes corrM corrC segs
    sims i j = similitudPar corrM corrC s1 s2 ∧
    (∀ cm cc, anchura s1.mfcc = anchura s2.mfcc →
      anchura s1.chroma = anchura s2.chroma →
      valor (corrM s1.mfcc.flatten s2.mfcc.flatten) = some cm →
      valor (corrC s1.chroma.flatten s2.chroma.flatten) = some cc →
      sims i j = cm * (7 / 10) + cc * (3 / 10)) ∧
    (anchura s1.mfcc = anchura s2.mfcc →
      corrM s1.mfcc.flatten s2.mfcc.flatten = .exn → sims i j = 0) ∧
    (corrComponente corrM s1.mfcc s2.mfcc ≠ none →
      anchura s1.chroma = anchura s2.chroma →
      corrC s1.chroma.flatten s2.chroma.flatten = .exn → sims i j = 0) ∧
    (∀ cc, anchura s1.mfcc ≠ anchura s2.mfcc →
      anchura s1.chroma = anchura s2.chroma →
      valor (corrC s1.chroma.flatten s2.chroma.flatten) = some cc →
      sims i j = cc * (3 / 10)) ∧
    (∀ cm, anchura s1.mfcc = anchura s2.mfcc →
      anchura s1.chroma ≠ anchura s2.chroma →
      valor (corrM s1.mfcc.flatten s2.mfcc.flatten) = some cm →
      sims i j = cm * (7 / 10)) ∧
    (anchura s1.mfcc ≠ anchura s2.mfcc →
      anchura s1.chroma ≠ anchura s2.chroma → sims i j = 0) := by
  intro s1 s2 sims
  have hbase : sims i j = similitudPar corrM corrC s1 s2 := by
    show calcular_similitudes corrM corrC segs i j = _
    rw [calcular_similitudes_eval]
    rw [if_pos ⟨Nat.ne_of_lt hij, lt_trans hij hj, hj⟩, min_eq_left hij.le,
      max_eq_right hij.le]
  refine ⟨hbase, ?_, ?_, ?_, ?_, ?_, ?_⟩
  · intro cm cc hM hC hvm hvc
    rw [hbase]
    unfold similitudPar corrComponente
    rw [if_pos hM, if_pos hC, hvm, hvc]
  · intro hM hexn
    rw [hbase]
    unfold similitudPar corrComponente
    rw [if_pos hM, hexn]
    rfl
  · intro hne hC hexn
    rw [hbase]
    unfold similitudPar
    match hcomp : corrComponente corrM s1.mfcc s2.mfcc with
    | none => rfl
    | some cm =>
      unfold corrComponente
      rw [if_pos hC, hexn]
      rfl
  · intro cc hM hC hvc
    rw [hbase]
    unfold similitudPar corrComponente
    rw [if_neg hM, if_pos hC, hvc]
    show (0 : ℚ) * (7 / 10) + cc * (3 / 10) = cc * (3 / 10)
    ring
  · intro cm hM hC hvm
    rw [hbase]
    unfold similitudPar corrComponente
    rw [if_pos hM, if_neg hC, hvm]
    show cm * (7 / 10) + (0 : ℚ) * (3 / 10) = cm * (7 / 10)
    ring
  · intro hM hC
    rw [hbase]
    unfold similitudPar corrComponente
    rw [if_neg hM, if_neg hC]
    show (0 : ℚ) * (7 / 10) + (0 : ℚ) * (3 / 10) = 0
    ring

/-- C6 witness: the characterization instantiated on the two concrete
segments at indices 0 < 1 of a two-segment list. -/
theorem similitud_par_caracterizacion_testigo :
    (0 : ℕ) < 1 ∧ 1 < [segC6a, segC6b].length ∧
    (let s1 := [segC6a, segC6b].getD 0 segDefault
     let s2 := [segC6a, segC6b].getD 1 segDefault
     let sims := calcular_similitudes corrUno corrUno [segC6a, segC6b]
     sims 0 1 = similitudPar corrUno corrUno s1 s2 ∧
     (∀ cm cc, anchura s1.mfcc = anchura s2.mfcc →
       anchura s1.chroma = anchura s2.chroma →
       valor (corrUno s1.mfcc.flatten s2.mfcc.flatten) = some cm →
       valor (corrUno s1.chroma.flatten s2.chroma.flatten) = some cc →
       sims 0 1 = cm * (7 / 10) + cc * (3 / 10)) ∧
     (anchura s1.mfcc = anchura s2.mfcc →
       corrUno s1.mfcc.flatten s2.mfcc.flatten = .exn → sims 0 1 = 0) ∧
     (corrComponente corrUno s1.mfcc s2.mfcc ≠ none →
       anchura s1.chroma = anchura s2.chroma →
       corrUno s1.chroma.flatten s2.chroma.flatten = .exn → sims 0 1 = 0) ∧
     (∀ cc, anchura s1.mfcc ≠ anchura s2.mfcc →
       anchura s1.chroma = anchura s2.chroma →
       valor (corrUno s1.chroma.flatten s2.chroma.flatten) = some cc →
       sims 0 1 = cc * (3 / 10)) ∧
     (∀ cm, anchura s1.mfcc = anchura s2.mfcc →
       anchura s1.chroma ≠ anchura s2.chroma →
       valor (corrUno s1.mfcc.flatten s2.mfcc.flatten) = some cm →
       sims 0 1 = cm * (7 / 10)) ∧
     (anchura s1.mfcc ≠ anchura s2.mfcc →
       anchura s1.chroma ≠ anchura s2.chroma → sims 0 1 = 0)) :=
  ⟨by decide, by decide,
    similitud_par_caracterizacion corrUno corrUno [segC6a, segC6b] 0 1
      (by decide) (by decide)⟩

/-! ### Claim C4: repetition score -/

/-- C4: for every record produced by `calcular_score_coro` (over the matrix
returned by `calcular_similitudes`), the repetition score equals the number
of indices `j` with `similarity(i, j) > 0.6` divided by the segment count;
only other segments can be counted (the diagonal entry is zero, so the
filter may equivalently require `j ≠ i`), and the score lies in `[0, 1]`. -/
theorem score_repeticion_cuenta (corrM corrC : CorrFun) (segs : List Segmento)
    (r : ScoreRecord)
    (hr : r ∈ calcular_score_coro segs (calcular_similitudes corrM corrC segs)) :
    r.score_repeticion =
      ((((List.range segs.length).filter (fun j =>
        decide (j ≠ r.indice) && decide ((6 : ℚ) / 10 <
          calcular_similitudes corrM corrC segs r.indice j))).length : ℚ))
        / (segs.length : ℚ) ∧
    0 ≤ r.score_repeticion ∧ r.score_repeticion ≤ 1 := by
  unfold calcular_score_coro at hr
  rw [List.mem_mergeSort, List.mem_map] at hr
  obtain ⟨i, hi, hri⟩ := hr
  rw [List.mem_range] at hi
  subst hri
  have hind : (scoreRecord segs (calcular_similitudes corrM corrC segs) i).indice = i := rfl
  have hrep : (scoreRecord segs (calcular_similitudes corrM corrC segs) i).score_repeticion =
      ((((List.range segs.length).filter (fun j => decide ((6 : ℚ) / 10 <
        calcular_similitudes corrM corrC segs i j))).length : ℚ)) / (segs.length : ℚ) := rfl
  have hfil : (List.range segs.length).filter (fun j => decide ((6 : ℚ) / 10 <
        calcular_similitudes corrM corrC segs i j)) =
      (List.range segs.length).filter (fun j => decide (j ≠ i) &&
        decide ((6 : ℚ) / 10 < calcular_similitudes corrM corrC segs i j)) := by
    apply List.filter_congr
    intro x _
    by_cases hq : (6 : ℚ) / 10 < calcular_similitudes corrM corrC segs i x
    · have hxne : x ≠ i := by
        intro hxi
        subst hxi
        rw [calcular_similitudes_eval, if_neg (by simp)] at hq
        norm_num at hq
      simp [hq, hxne]
    · simp [hq]
  have hn : 0 < segs.length := lt_of_le_of_lt (Nat.zero_le i) hi
  refine ⟨?_, ?_, ?_⟩
  · rw [hind, hrep, hfil]
  · rw [hrep]
    positivity
  · rw [hrep]
    rw [div_le_one (by exact_mod_cast hn)]
    exact_mod_cast le_trans (List.length_filter_le _ _) (le_of_eq (List.length_range _))

/-- Similarity oracle returning NaN for every consulted pair (as
`np.corrcoef` does on constant vectors); used to keep witness inputs
small. -/
def corrNan : CorrFun := fun _ _ => .nan

/-- Record produced for index 0 of the two-segment list under the NaN
correlation oracle. -/
def recordC4 : ScoreRecord :=
  scoreRecord [segC6a, segC6b]
    (calcular_similitudes corrNan corrNan [segC6a, segC6b]) 0

/-- C4 witness: the index-0 record of a concrete two-segment list is in the
ranked output and satisfies the repetition-score characterization. -/
theorem score_repeticion_cuenta_testigo :
    recordC4 ∈ calcular_score_coro [segC6a, segC6b]
      (calcular_similitudes corrNan corrNan [segC6a, segC6b]) ∧
    (recordC4.score_repeticion =
      ((((List.range ([segC6a, segC6b] : List Segmento).length).filter (fun j =>
        decide (j ≠ recordC4.indice) && decide ((6 : ℚ) / 10 <
          calcular_similitudes corrNan corrNan [segC6a, segC6b] recordC4.indice j))).length : ℚ))
        / (([segC6a, segC6b] : List Segmento).length : ℚ) ∧
    0 ≤ recordC4.score_repeticion ∧ recordC4.score_repeticion ≤ 1) := by
  have hmem : recordC4 ∈ calcular_score_coro [segC6a, segC6b]
      (calcular_similitudes corrNan corrNan [segC6a, segC6b]) := by
    unfold calcular_score_coro
    rw [List.mem_mergeSort, List.mem_map]
    exact ⟨0, by decide, rfl⟩
  exact ⟨hmem, score_repeticion_cuenta corrNan corrNan [segC6a, segC6b] recordC4 hmem⟩

/-! ### Claim C5: position score bands -/

/-- C5: the position score of `calcular_score_coro` is computed from the
relative position (segment start time divided by the track duration, i.e.
the last segment's end time): `1.0` on the middle band `[0.25, 0.75]`,
`0.7` on `[0.15, 0.85]` outside the first band, and `0.3` otherwise. -/
theorem score_posicion_bandas (segs : List Segmento) (sims : ℕ → ℕ → ℚ)
    (i : ℕ) (_h : i < segs.length) :
    let p := (segs.getD i segDefault).inicio_s / (segs.getLastD segDefault).fin_s
    let r := scoreRecord segs sims i
    (1 / 4 ≤ p ∧ p ≤ 3 / 4 → r.score_posicion = 1) ∧
    (3 / 20 ≤ p ∧ p ≤ 17 / 20 → ¬(1 / 4 ≤ p ∧ p ≤ 3 / 4) →
      r.score_posicion = 7 / 10) ∧
    (¬(1 / 4 ≤ p ∧ p ≤ 3 / 4) → ¬(3 / 20 ≤ p ∧ p ≤ 17 / 20) →
      r.score_posicion = 3 / 10) := by
  intro p r
  have hr : r.score_posicion =
      if 1 / 4 ≤ p ∧ p ≤ 3 / 4 then (1 : ℚ)
      else if 3 / 20 ≤ p ∧ p ≤ 17 / 20 then 7 / 10 else 3 / 10 := rfl
  refine ⟨?_, ?_, ?_⟩
  · intro hb
    rw [hr, if_pos hb]
  · intro hb hnb
    rw [hr, if_neg hnb, if_pos hb]
  · intro hnb hnb2
    rw [hr, if_neg hnb, if_neg hnb2]

/-- Segment carrying only time bounds (the position score reads nothing
else). -/
def segC5 (a b : ℚ) : Segmento :=
  { segDefault with inicio_s := a, fin_s := b }

/-- Four segments on a 100-second track starting at 5%, 20%, 50% and 95% of
the track duration. -/
def segsC5 : List Segmento :=
  [segC5 5 17, segC5 20 32, segC5 50 62, segC5 95 100]

/-- C5 witness: on the concrete track, a start at 50% scores 1.0, at 20%
scores 0.7, and at 5% and 95% scores 0.3. -/
theorem score_posicion_bandas_testigo :
    (2 < segsC5.length ∧ (scoreRecord segsC5 matrizCero 2).score_posicion = 1) ∧
    (1 < segsC5.length ∧
      (scoreRecord segsC5 matrizCero 1).score_posicion = 7 / 10) ∧
    (0 < segsC5.length ∧
      (scoreRecord segsC5 matrizCero 0).score_posicion = 3 / 10) ∧
    (3 < segsC5.length ∧
      (scoreRecord segsC5 matrizCero 3).score_posicion = 3 / 10) := by
  refine ⟨⟨by decide, ?_⟩, ⟨by decide, ?_⟩, ⟨by decide, ?_⟩, ⟨by decide, ?_⟩⟩
  · exact (score_posicion_bandas segsC5 matrizCero 2 (by decide)).1
      (by norm_num [segsC5, segC5, segDefault, List.getD, List.getLastD])
  · exact (score_posicion_bandas segsC5 matrizCero 1 (by decide)).2.1
      (by norm_num [segsC5, segC5, segDefault, List.getD, List.getLastD])
      (by norm_num [segsC5, segC5, segDefault, List.getD, List.getLastD])
  · exact (score_posicion_bandas segsC5 matrizCero 0 (by decide)).2.2
      (by norm_num [segsC5, segC5, segDefault, List.getD, List.getLastD])
      (by norm_num [segsC5, segC5, segDefault, List.getD, List.getLastD])
  · exact (score_posicion_bandas segsC5 matrizCero 3 (by decide)).2.2
      (by norm_num [segsC5, segC5, segDefault, List.getD, List.getLastD])
      (by norm_num [segsC5, segC5, segDefault, List.getD, List.getLastD])

/-! ### Claim C2: segment count -/

lemma longitud_analizar (a : AudioCargado) (ventana_s hop_s : ℕ) :
    (analizar_segmentos_completo a ventana_s hop_s).length =
      (a.rms.length - ventana_s * a.sr / 512 + (hop_s * a.sr / 512) - 1) /
        (hop_s * a.sr / 512) := by
  simp [analizar_segmentos_completo, pyRange0]

/-- Audio oracle with 602 RMS frames at sample rate 22050, so that
`total_frames - window_frames = 602 - 516 = 86` equals the stride exactly. -/
def audioC2 : AudioCargado :=
  { rms := List.replicate 602 0, mfcc := [], centroid := [], chroma := []
    sr := 22050, tempo := 0 }

set_option maxRecDepth 4096 in
/-- C2 counterexample: at 602 total frames (window 516, stride 86, the
frame counts derived from 12 s / 2 s at hop 512 and sample rate 22050) the
code produces 1 segment while the claimed formula
`floor((total − window) / stride) + 1` gives 2: the Python `range` stop is
exclusive, so the window that would start exactly at
`total_frames − window_frames` is never produced. -/
theorem conteo_segmentos_contraejemplo :
    audioC2.rms.length = 602 ∧
    12 * audioC2.sr / 512 = 516 ∧
    2 * audioC2.sr / 512 = 86 ∧
    (analizar_segmentos_completo audioC2 12 2).length = 1 ∧
    (audioC2.rms.length - 12 * audioC2.sr / 512) / (2 * audioC2.sr / 512) + 1 = 2 := by
  refine ⟨by decide, by decide, by decide, ?_, by decide⟩
  rw [longitud_analizar]
  simp only [audioC2, List.length_replicate]

/-- C2 (amended): the Segmenter produces
`ceil((total_frames − window_frames) / stride_frames)` segments — written
below with the natural-number identity `ceil(x / s) = (x + s - 1) / s` and
truncated subtraction — i.e. the claimed `floor + 1` count except that a
window starting exactly at `total_frames − window_frames` is excluded
(and 0 segments whenever the window does not fit). -/
theorem conteo_segmentos (a : AudioCargado) :
    (analizar_segmentos_completo a 12 2).length =
      (a.rms.length - 12 * a.sr / 512 + (2 * a.sr / 512) - 1) / (2 * a.sr / 512) :=
  longitud_analizar a 12 2

/-! ### Claim C3: track shorter than the window -/

/-- C3: when the feature streams are shorter than the analysis window, the
Segmenter produces zero segments, and `detectar_y_extraer_coro` (through
the `IndexError` of `scores[0]` caught by its handler) returns a
failure-shaped result instead of raising. -/
theorem pista_corta_falla (env : Entorno) (audio : AudioCargado) (d : ℚ)
    (h1 : env.existe = true) (h2 : env.carga = .ok audio)
    (h3 : audio.rms.length < 12 * audio.sr / 512) :
    analizar_segmentos_completo audio 12 2 = [] ∧
    ∃ msg, detectar_y_extraer_coro env d = .fallo msg := by
  have hz : audio.rms.length - 12 * audio.sr / 512 = 0 :=
    Nat.sub_eq_zero_of_le (le_of_lt h3)
  have hrange : ∀ step : ℕ, (step - 1) / step = 0 := by
    intro step
    rcases Nat.eq_zero_or_pos step with h0 | hpos
    · subst h0
      rfl
    · exact Nat.div_eq_of_lt (by omega)
  have hseg : analizar_segmentos_completo audio 12 2 = [] := by
    simp [analizar_segmentos_completo, pyRange0, hz, hrange]
  refine ⟨hseg, ?_⟩
  simp [detectar_y_extraer_coro, h1, h2, hseg, calcular_score_coro]

/-- Audio oracle with no frames at all (a track far shorter than 12 s). -/
def audioVacio : AudioCargado :=
  { rms := [], mfcc := [], centroid := [], chroma := [], sr := 22050, tempo := 0 }

/-- Environment for a short track: the file exists, loading succeeds with
`audioVacio`, exporting would succeed. -/
def envCorto : Entorno :=
  { ruta_audio := "cancion.wav", salida_audio := "coro.wav", existe := true
    carga := .ok audioVacio, corrM := corrNan, corrC := corrNan
    exporta := .ok () }

/-- C3 witness: on the concrete empty-feature track the pipeline yields
zero segments and a failure result. -/
theorem pista_corta_falla_testigo :
    envCorto.existe = true ∧ envCorto.carga = .ok audioVacio ∧
    audioVacio.rms.length < 12 * audioVacio.sr / 512 ∧
    (analizar_segmentos_completo audioVacio 12 2 = [] ∧
      ∃ msg, detectar_y_extraer_coro envCorto 30 = .fallo msg) :=
  ⟨rfl, rfl, by decide,
    pista_corta_falla envCorto audioVacio 30 rfl rfl (by decide)⟩

/-! ### Claim C1: the entry point never raises -/

/-- C1: for every environment (input path, output path, external-call
outcomes) and target duration, `detectar_y_extraer_coro` returns either a
failure-shaped result carrying an error message, or a success record built
from the winning (top-ranked) score record and the expanded bounds: start
and end are the expansion's output, duration is end minus start, score and
repetition count come from the winner, and the output path is the requested
one; no branch escapes without producing a result. -/
theorem detectar_nunca_lanza (env : Entorno) (d : ℚ) :
    (∃ msg, detectar_y_extraer_coro env d = .fallo msg) ∨
    (∃ info, detectar_y_extraer_coro env d = .exito info ∧
      ∃ audio mejor resto,
        env.carga = .ok audio ∧
        calcular_score_coro (analizar_segmentos_completo audio 12 2)
          (calcular_similitudes env.corrM env.corrC
            (analizar_segmentos_completo audio 12 2)) = mejor :: resto ∧
        info.inicio_s =
          (expandir_segmento mejor (analizar_segmentos_completo audio 12 2) d).1 ∧
        info.fin_s =
          (expandir_segmento mejor (analizar_segmentos_completo audio 12 2) d).2 ∧
        info.duracion_s = info.fin_s - info.inicio_s ∧
        info.score = mejor.score_total ∧
        info.repeticiones = mejor.repeticiones ∧
        info.archivo_salida = env.salida_audio) := by
  unfold detectar_y_extraer_coro
  split
  · exact .inl ⟨_, rfl⟩
  · split
    · exact .inl ⟨_, rfl⟩
    · split
      · dsimp only
        split
        · exact .inl ⟨_, rfl⟩
        · exact .inl ⟨_, rfl⟩
      · dsimp only
        split
        · exact .inl ⟨_, rfl⟩
        · exact .inr ⟨_, rfl, _, _, _, by assumption, by assumption,
            rfl, rfl, rfl, rfl, rfl, rfl⟩

/-! ### Claims C8, C9, C10: segment expansion -/

lemma getD_mem_of_lt {l : List Segmento} {i : ℕ} (h : i < l.length) :
    l.getD i segDefault ∈ l := by
  rw [List.getD_eq_getElem l segDefault h]
  exact List.getElem_mem h

/-- Branch-level reading of `expandir_segmento`: identity when the raw
duration reaches the target; otherwise the symmetric half-shortfall
expansion, with the end-of-track clamp when the expanded end passes the last
segment's end time. -/
lemma expandir_segmento_eval (mejor : ScoreRecord) (segs : List Segmento)
    (objetivo : ℚ) :
    expandir_segmento mejor segs objetivo =
      if objetivo ≤ (segs.getD mejor.indice segDefault).fin_s -
          (segs.getD mejor.indice segDefault).inicio_s then
        ((segs.getD mejor.indice segDefault).inicio_s,
         (segs.getD mejor.indice segDefault).fin_s)
      else if (segs.getLastD segDefault).fin_s <
          (segs.getD mejor.indice segDefault).fin_s +
            (objetivo - ((segs.getD mejor.indice segDefault).fin_s -
              (segs.getD mejor.indice segDefault).inicio_s)) / 2 then
        (max 0 ((segs.getLastD segDefault).fin_s - objetivo),
         (segs.getLastD segDefault).fin_s)
      else
        (max 0 ((segs.getD mejor.indice segDefault).inicio_s -
            (objetivo - ((segs.getD mejor.indice segDefault).fin_s -
              (segs.getD mejor.indice segDefault).inicio_s)) / 2),
         (segs.getD mejor.indice segDefault).fin_s +
           (objetivo - ((segs.getD mejor.indice segDefault).fin_s -
             (segs.getD mejor.indice segDefault).inicio_s)) / 2) := rfl

/-- C8: when the winning segment's raw duration (end minus start) already
meets or exceeds the target duration, `expandir_segmento` returns its
bounds unchanged. -/
theorem expandir_identidad (mejor : ScoreRecord) (segs : List Segmento)
    (objetivo : ℚ)
    (h : objetivo ≤ (segs.getD mejor.indice segDefault).fin_s -
      (segs.getD mejor.indice segDefault).inicio_s) :
    expandir_segmento mejor segs objetivo =
      ((segs.getD mejor.indice segDefault).inicio_s,
       (segs.getD mejor.indice segDefault).fin_s) := by
  rw [expandir_segmento_eval, if_pos h]

/-- Score record pointing at segment index 0 (only the index field is read
by the expansion step). -/
def recordIdx0 : ScoreRecord :=
  { indice := 0, score_total := 0, score_repeticion := 0
    energia_normalizada := 0, score_posicion := 0, repeticiones := 0
    inicio_s := 0, fin_s := 0 }

/-- C8 witness: a 40-second winning segment with a 30-second target is
returned unchanged. -/
theorem expandir_identidad_testigo :
    (30 : ℚ) ≤ ([segC5 0 40].getD recordIdx0.indice segDefault).fin_s -
      ([segC5 0 40].getD recordIdx0.indice segDefault).inicio_s ∧
    expandir_segmento recordIdx0 [segC5 0 40] 30 =
      (([segC5 0 40].getD recordIdx0.indice segDefault).inicio_s,
       ([segC5 0 40].getD recordIdx0.indice segDefault).fin_s) :=
  ⟨by norm_num [segC5, segDefault, recordIdx0, List.getD],
   expandir_identidad recordIdx0 [segC5 0 40] 30
     (by norm_num [segC5, segDefault, recordIdx0, List.getD])⟩

/-- C9: for a nonempty segment list whose segments all start at or after 0
and end at or before the last segment's end time (as the Segmenter's output
does), `expandir_segmento` never returns a start below 0 nor an end beyond
the track duration; on a shortfall it expands by half the shortfall on each
side, and when the expanded end passes the track duration it clamps the end
there and pulls the start back to `end − target` re-clamped at 0, making
the returned duration at most the target. -/
theorem expandir_en_rango (mejor : ScoreRecord) (segs : List Segmento)
    (objetivo : ℚ) (_hne : segs ≠ [])
    (hidx : mejor.indice < segs.length)
    (hbound : ∀ s ∈ segs, 0 ≤ s.inicio_s ∧
      s.fin_s ≤ (segs.getLastD segDefault).fin_s) :
    let total := (segs.getLastD segDefault).fin_s
    let seg := segs.getD mejor.indice segDefault
    let dur := seg.fin_s - seg.inicio_s
    let e := (objetivo - dur) / 2
    let r := expandir_segmento mejor segs objetivo
    0 ≤ r.1 ∧ r.2 ≤ total ∧
    (dur < objetivo → total < seg.fin_s + e →
      r = (max 0 (total - objetivo), total) ∧ r.2 - r.1 ≤ objetivo) ∧
    (dur < objetivo → seg.fin_s + e ≤ total →
      r = (max 0 (seg.inicio_s - e), seg.fin_s + e)) := by
  intro total seg dur e r
  obtain ⟨hs0, hsfin⟩ := hbound seg (getD_mem_of_lt hidx)
  have hrv : r = expandir_segmento mejor segs objetivo := rfl
  rw [expandir_segmento_eval] at hrv
  by_cases h1 : objetivo ≤ (segs.getD mejor.indice segDefault).fin_s -
      (segs.getD mejor.indice segDefault).inicio_s
  · have hreq : r = (seg.inicio_s, seg.fin_s) := by
      rw [hrv, if_pos h1]
    refine ⟨?_, ?_, ?_, ?_⟩
    · rw [hreq]
      exact hs0
    · rw [hreq]
      exact hsfin
    · intro hdur _
      exact absurd h1 (not_le.mpr hdur)
    · intro hdur _
      exact absurd h1 (not_le.mpr hdur)
  · by_cases h2 : (segs.getLastD segDefault).fin_s <
        (segs.getD mejor.indice segDefault).fin_s +
          (objetivo - ((segs.getD mejor.indice segDefault).fin_s -
            (segs.getD mejor.indice segDefault).inicio_s)) / 2
    · have hreq : r = (max 0 (total - objetivo), total) := by
        rw [hrv, if_neg h1, if_pos h2]
      refine ⟨?_, ?_, ?_, ?_⟩
      · rw [hreq]
        exact le_max_left 0 _
      · rw [hreq]
      · intro _ _
        refine ⟨hreq, ?_⟩
        rw [hreq]
        dsimp only
        rcases le_total 0 (total - objetivo) with hmax | hmax
        · rw [max_eq_right hmax]
          linarith
        · rw [max_eq_left hmax]
          linarith
      · intro _ hfit
        exact absurd h2 (not_lt.mpr hfit)
    · have hreq : r = (max 0 (seg.inicio_s - e), seg.fin_s + e) := by
        rw [hrv, if_neg h1, if_neg h2]
      refine ⟨?_, ?_, ?_, ?_⟩
      · rw [hreq]
        exact le_max_left 0 _
      · rw [hreq]
        exact not_lt.mp h2
      · intro _ hcl
        exact absurd hcl h2
      · intro _ _
        exact hreq


/-- C9 witness: a single 12-second segment with a 30-second target; the
expansion clamps at the track end (12 s) and returns `[0, 12)`, within
bounds and of duration at most the target. -/
theorem expandir_en_rango_testigo :
    ([segC5 0 12] : List Segmento) ≠ [] ∧
    recordIdx0.indice < ([segC5 0 12] : List Segmento).length ∧
    (∀ s ∈ [segC5 0 12], 0 ≤ s.inicio_s ∧
      s.fin_s ≤ ([segC5 0 12].getLastD segDefault).fin_s) ∧
    (let total := ([segC5 0 12].getLastD segDefault).fin_s
     let seg := [segC5 0 12].getD recordIdx0.indice segDefault
     let dur := seg.fin_s - seg.inicio_s
     let e := ((30 : ℚ) - dur) / 2
     let r := expandir_segmento recordIdx0 [segC5 0 12] 30
     0 ≤ r.1 ∧ r.2 ≤ total ∧
     (dur < 30 → total < seg.fin_s + e →
       r = (max 0 (total - 30), total) ∧ r.2 - r.1 ≤ 30) ∧
     (dur < 30 → seg.fin_s + e ≤ total →
       r = (max 0 (seg.inicio_s - e), seg.fin_s + e))) := by
  have hb : ∀ s ∈ [segC5 0 12], 0 ≤ s.inicio_s ∧
      s.fin_s ≤ ([segC5 0 12].getLastD segDefault).fin_s := by
    intro s hs
    rw [List.mem_singleton] at hs
    subst hs
    norm_num [segC5, segDefault, List.getLastD]
  exact ⟨List.cons_ne_nil _ _, by decide, hb,
    expandir_en_rango recordIdx0 [segC5 0 12] 30 (List.cons_ne_nil _ _)
      (by decide) hb⟩

/-- C10: when the winning segment starts at a nonnegative time strictly
below half the shortfall (so the expanded start clamps at 0) while the
expanded end stays within the track, `expandir_segmento` returns the window
from 0 to the original end plus half the shortfall, whose duration is
strictly below the target: no compensating extension is applied at the
trailing end. -/
theorem expandir_recorte_inicio (mejor : ScoreRecord) (segs : List Segmento)
    (objetivo : ℚ) :
    let seg := segs.getD mejor.indice segDefault
    let dur := seg.fin_s - seg.inicio_s
    let e := (objetivo - dur) / 2
    let total := (segs.getLastD segDefault).fin_s
    0 ≤ seg.inicio_s → seg.inicio_s < e → seg.fin_s + e ≤ total →
      expandir_segmento mejor segs objetivo = (0, seg.fin_s + e) ∧
      seg.fin_s + e - 0 < objetivo := by
  intro seg dur e total h0 hstart hend
  have hedef : e = (objetivo - (seg.fin_s - seg.inicio_s)) / 2 := rfl
  have hdur : ¬ objetivo ≤ (segs.getD mejor.indice segDefault).fin_s -
      (segs.getD mejor.indice segDefault).inicio_s := by
    show ¬ objetivo ≤ seg.fin_s - seg.inicio_s
    rw [not_le]
    linarith [hedef, hstart, h0]
  have hnoclamp : ¬ ((segs.getLastD segDefault).fin_s <
      (segs.getD mejor.indice segDefault).fin_s +
        (objetivo - ((segs.getD mejor.indice segDefault).fin_s -
          (segs.getD mejor.indice segDefault).inicio_s)) / 2) := by
    show ¬ (total < seg.fin_s + e)
    exact not_lt.mpr hend
  constructor
  · rw [expandir_segmento_eval, if_neg hdur, if_neg hnoclamp]
    have hmax : (segs.getD mejor.indice segDefault).inicio_s -
        (objetivo - ((segs.getD mejor.indice segDefault).fin_s -
          (segs.getD mejor.indice segDefault).inicio_s)) / 2 ≤ 0 := by
      show seg.inicio_s - e ≤ 0
      linarith [hstart]
    rw [max_eq_left hmax]
  · linarith [hedef, hstart, h0]

/-- C10 witness: winner `[2 s, 12 s)` on a track ending at 62 s with target
30 s; half the shortfall is 10 s, the start clamps at 0 and the result is
`[0 s, 22 s)`, strictly shorter than the 30-second target. -/
theorem expandir_recorte_inicio_testigo :
    (let seg := [segC5 2 12, segC5 50 62].getD recordIdx0.indice segDefault
     let dur := seg.fin_s - seg.inicio_s
     let e := ((30 : ℚ) - dur) / 2
     let total := ([segC5 2 12, segC5 50 62].getLastD segDefault).fin_s
     0 ≤ seg.inicio_s ∧ seg.inicio_s < e ∧ seg.fin_s + e ≤ total ∧
     (expandir_segmento recordIdx0 [segC5 2 12, segC5 50 62] 30 =
        (0, seg.fin_s + e) ∧
      seg.fin_s + e - 0 < 30)) := by
  refine ⟨?_, ?_, ?_, ?_⟩
  · norm_num [segC5, segDefault, recordIdx0, List.getD]
  · norm_num [segC5, segDefault, recordIdx0, List.getD]
  · norm_num [segC5, segDefault, recordIdx0, List.getD, List.getLastD]
  · exact expandir_recorte_inicio recordIdx0 [segC5 2 12, segC5 50 62] 30
      (by norm_num [segC5, segDefault, recordIdx0, List.getD])
      (by norm_num [segC5, segDefault, recordIdx0, List.getD])
      (by norm_num [segC5, segDefault, recordIdx0, List.getD, List.getLastD])

end CorosDetec
